import Mathlib

/-!
Shallow embedding of the oil-spill finite-volume simulator
(`src/simulation/{mesh/cells.py, mesh/mesh.py, physics/flux.py, simulation.py}`).

Conventions of the embedding:
* Python floats are modelled as exact real numbers `ℝ`; 2-vectors as `ℝ × ℝ`.
* Cell ids coincide with list positions: `Mesh._read_mesh` appends cells while
  incrementing `cell_id` exactly once per appended cell, so `mesh.cells[i].idx == i`.
* Python list indexing is modelled with `List.getD`; the out-of-range default is
  never reached in any statement below (Python would raise `IndexError` there).
-/

namespace OilSim

/-- 2D dot product, `np.dot` on length-2 arrays. -/
def vdot (a b : ℝ × ℝ) : ℝ := a.1 * b.1 + a.2 * b.2

/-- Embeds `flux(a, b, normal, edge_velocity)` from `physics/flux.py`:
`dot = np.dot(edge_velocity, normal); return a*dot if dot > 0 else b*dot`. -/
noncomputable def flux (a b : ℝ) (normal edge_velocity : ℝ × ℝ) : ℝ :=
  let dot := vdot edge_velocity normal
  if dot > 0 then a * dot else b * dot

/-- Embeds `flux_contribution(u_i, u_ngh, area_i, normal_i_l, edge_velocity_i,
edge_velocity_ngh, dt)` from `physics/flux.py`. -/
noncomputable def flux_contribution (u_i u_ngh area_i : ℝ) (normal_i_l : ℝ × ℝ)
    (edge_velocity_i edge_velocity_ngh : ℝ × ℝ) (dt : ℝ) : ℝ :=
  let edge_velocity_avg : ℝ × ℝ :=
    (0.5 * (edge_velocity_i.1 + edge_velocity_ngh.1),
     0.5 * (edge_velocity_i.2 + edge_velocity_ngh.2));
  -dt / area_i * flux u_i u_ngh normal_i_l edge_velocity_avg

/-! ## Mesh cells at runtime (`mesh/cells.py` as used by `Mesh` and `Simulation`)

`Mesh._read_mesh` creates `Line(cell_id, pts)` cells and geometry-mode
`Triangle(point_ids=pts, idx=cell_id, points=self.points)` cells, incrementing
`cell_id` once per appended cell, so a cell's `idx` equals its list position and
is kept implicit here.  A geometry-mode `Triangle` carries the attributes that
`compute_neighbors` and `Simulation.step` read; `Line` carries only its point
ids and neighbor list. -/

/-- Runtime attribute record of a geometry-mode `Triangle`. -/
structure TriData where
  pointIds : List ℕ
  area : ℝ
  normals : List (ℝ × ℝ)
  velocity : ℝ × ℝ
  xMid : ℝ × ℝ
  neighbors : List ℕ
  edgeToNeighbor : List (Option ℕ)

/-- A cell in `mesh.cells`: a boundary `Line` or a geometry-mode `Triangle`. -/
inductive SimCell where
  | line (pointIds : List ℕ) (neighbors : List ℕ)
  | tri (d : TriData)

/-- Embeds `cell.point_ids`. -/
def SimCell.pointIds : SimCell → List ℕ
  | .line p _ => p
  | .tri d => d.pointIds

/-- Embeds `cell.neighbors`. -/
def SimCell.neighbors : SimCell → List ℕ
  | .line _ n => n
  | .tri d => d.neighbors

/-- Embeds `cell.edge_to_neighbor` (the attribute exists only on geometry-mode
Triangles; `[]` stands for its absence). -/
def SimCell.edgeToNeighbor : SimCell → List (Option ℕ)
  | .line _ _ => []
  | .tri d => d.edgeToNeighbor

/-- Embeds `hasattr(cell, "edge_to_neighbor")`: true exactly for geometry-mode
Triangles (`Triangle.__init__` sets the attribute only when `points` is given;
`Line` never has it). -/
def SimCell.hasEdgeMap : SimCell → Bool
  | .line _ _ => false
  | .tri _ => true

/-- Default cell used for (never reached) out-of-range list accesses. -/
def dummyCell : SimCell := .line [] []

/-- Embeds `cell_list[j].point_ids`. -/
def pidAt (L : List SimCell) (j : ℕ) : List ℕ := (L.getD j dummyCell).pointIds

/-- Embeds `set(self.point_ids) & set(cell.point_ids)` in `Cell.compute_neighbors`. -/
def sharedPoints (a b : List ℕ) : Finset ℕ := a.toFinset ∩ b.toFinset

/-- The neighbor list `compute_neighbors` builds for the cell at position `i`:
scan all cells in order, skip the cell itself, and append `cell.idx` whenever
exactly 2 points are shared. -/
def neighborsOf (L : List SimCell) (i : ℕ) : List ℕ :=
  (List.range L.length).filter fun j =>
    decide (j ≠ i ∧ (sharedPoints (pidAt L i) (pidAt L j)).card = 2)

/-- Embeds `{self.point_ids[k], self.point_ids[(k + 1) % 3]}`: the vertex pair of
local edge `k`. -/
def edgePair (pid : List ℕ) (k : ℕ) : Finset ℕ :=
  {pid.getD k 0, pid.getD ((k + 1) % 3) 0}

/-- The inner `for k in range(3): ... break` loop of `compute_neighbors`: the
first local edge whose vertex pair equals the shared pair, if any. -/
def firstMatchingEdge (pid : List ℕ) (s : Finset ℕ) : Option ℕ :=
  (List.range 3).find? fun k => decide (edgePair pid k = s)

/-- The slot (if any) that the scan over candidate `j` writes into
`self.edge_to_neighbor` of the cell at position `i`: requires `j ≠ i`
(`cell is self`), that the candidate has an edge map
(`hasattr(cell, "edge_to_neighbor")`), exactly 2 shared points, and a local
edge matching the shared pair. -/
def slotWrite (L : List SimCell) (i j : ℕ) : Option ℕ :=
  if j ≠ i ∧ (L.getD j dummyCell).hasEdgeMap = true ∧
      (sharedPoints (pidAt L i) (pidAt L j)).card = 2 then
    firstMatchingEdge (pidAt L i) (sharedPoints (pidAt L i) (pidAt L j))
  else none

/-- The `edge_to_neighbor` list `compute_neighbors` builds for a triangle at
position `i`: start from `[None, None, None]` and, scanning candidates in
order, write `cell.idx` into the matched slot. -/
def edgeToNeighborOf (L : List SimCell) (i : ℕ) : List (Option ℕ) :=
  (List.range L.length).foldl
    (fun acc j =>
      match slotWrite L i j with
      | some k => acc.set k (some j)
      | none => acc)
    [none, none, none]

/-- Index-passing map used to model the per-cell pass of
`Mesh.computeNeighbors`. -/
def mapWithIndex (f : ℕ → SimCell → SimCell) : ℕ → List SimCell → List SimCell
  | _, [] => []
  | i, c :: rest => f i c :: mapWithIndex f (i + 1) rest

/-- Embeds `Mesh.computeNeighbors`: run `cell.compute_neighbors(self.cells)` on every
cell, resetting and repopulating `neighbors` (and, for triangles,
`edge_to_neighbor`). -/
def computeNeighbors (L : List SimCell) : List SimCell :=
  mapWithIndex
    (fun i c =>
      match c with
      | .line p _ => .line p (neighborsOf L i)
      | .tri d =>
          .tri { d with neighbors := neighborsOf L i,
                        edgeToNeighbor := edgeToNeighborOf L i })
    0 L

/-! ## Time stepper (`simulation.py`)

`Simulation.step` starts from `u_new[:] = u[:]`, rewrites slot `cell.idx` for
every non-degenerate Triangle, zeroes every Line slot, and swaps the buffers.
Every write goes to the writing cell's own slot `cell.idx` (= its list
position), so the final `u_new` is described cell by cell. -/

/-- Embeds `self.u[i]` (every index used by the program is in range). -/
def cellValue (u : List ℝ) (i : ℕ) : ℝ := u.getD i 0

/-- Body of the per-edge loop of `Simulation.step` for edge `k` of the
triangle with attributes `d` at position `i`: skip if
`cell.edge_to_neighbor[k]` is `None`, otherwise look the neighbor up and add
`flux_contribution` with the neighbor value and velocity (`0` and the zero
vector for a non-Triangle neighbor). -/
noncomputable def edgeTerm (L : List SimCell) (u : List ℝ) (dt : ℝ)
    (d : TriData) (i k : ℕ) : ℝ :=
  match d.edgeToNeighbor.getD k none with
  | none => 0
  | some j =>
    match L.getD j dummyCell with
    | .tri nd =>
        flux_contribution (cellValue u i) (cellValue u j) d.area
          (d.normals.getD k (0, 0)) d.velocity nd.velocity dt
    | .line _ _ =>
        flux_contribution (cellValue u i) 0 d.area
          (d.normals.getD k (0, 0)) d.velocity (0, 0) dt

/-- The accumulated `update` of `Simulation.step` for one triangle: the edge
loop runs `for k in range(len(cell.neighbors))` (NOT over the 3 edges). -/
noncomputable def triUpdate (L : List SimCell) (u : List ℝ) (dt : ℝ)
    (i : ℕ) (d : TriData) : ℝ :=
  ((List.range d.neighbors.length).map (edgeTerm L u dt d i)).sum

/-- The value `step()` leaves in `u_new` at the slot of the cell `c` sitting
at position `i`: Lines are forced to `0` by the boundary pass, degenerate
triangles (`area <= 0`) keep the copied-over `u[i]`, and live triangles get
`u[i] + update`. -/
noncomputable def newCellValue (L : List SimCell) (u : List ℝ) (dt : ℝ)
    (i : ℕ) : SimCell → ℝ
  | .line _ _ => 0
  | .tri d => if d.area ≤ 0 then cellValue u i
              else cellValue u i + triUpdate L u dt i d

/-- Slot-by-slot construction of the post-step array. -/
noncomputable def stepGo (L : List SimCell) (u : List ℝ) (dt : ℝ) :
    ℕ → List SimCell → List ℝ
  | _, [] => []
  | i, c :: rest => newCellValue L u dt i c :: stepGo L u dt (i + 1) rest

/-- The array `u_new` produced by one `Simulation.step` from solution `u`. -/
noncomputable def stepU (L : List SimCell) (dt : ℝ) (u : List ℝ) : List ℝ :=
  stepGo L u dt 0 L

/-- The `Simulation` object: mesh, time step, the two solution buffers and
the (initially absent) fishing-ground cache attribute. -/
structure Simulation where
  mesh : List SimCell
  dt : ℝ
  u : List ℝ
  uNew : List ℝ
  fishingCells : Option (List ℕ)

/-- Embeds `Simulation.__init__`: `u = np.zeros(len(mesh.cells))`,
`u_new = np.zeros_like(u)`; no `fishing_cells` attribute exists yet. -/
def Simulation.init (mesh : List SimCell) (dt : ℝ) : Simulation :=
  ⟨mesh, dt, List.replicate mesh.length 0, List.replicate mesh.length 0, none⟩

/-- Embeds `Simulation.step`: fill `u_new` from `u`, then
`self.u, self.u_new = self.u_new, self.u` (buffer swap). -/
noncomputable def Simulation.step (s : Simulation) : Simulation :=
  { s with u := stepU s.mesh s.dt s.u, uNew := s.u }

/-- Embeds `Simulation.set_initial_state` with its default arguments applied at call
sites: Triangles get `exp(-dot(dx, dx) / sigma2)` at the centroid, Lines 0. -/
noncomputable def setInitialU (L : List SimCell) (x_start : ℝ × ℝ)
    (sigma2 : ℝ) : List ℝ :=
  L.map fun c =>
    match c with
    | .tri d =>
        Real.exp (-((d.xMid.1 - x_start.1) * (d.xMid.1 - x_start.1) +
          (d.xMid.2 - x_start.2) * (d.xMid.2 - x_start.2)) / sigma2)
    | .line _ _ => 0

/-- Python `int(...)` on a real value: truncation toward zero. -/
noncomputable def pyIntTrunc (x : ℝ) : ℤ := if 0 ≤ x then ⌊x⌋ else -⌊-x⌋

/-- Embeds `Simulation.run(t_end, writeFrequency)`: set the initial state, compute
`n_steps = int(t_end / self.dt)` and call `step()` that many times in
sequence.  Plot writing is an external side effect and is not modelled. -/
noncomputable def Simulation.run (s : Simulation) (t_end : ℝ) : Simulation :=
  Simulation.step^[(pyIntTrunc (t_end / s.dt)).toNat]
    { s with u := setInitialU s.mesh (0.35, 0.45) 0.01 }

/-- Embeds `Simulation.find_fishing_ground_cells(borders)`: cache the positions of
the Triangles whose centroid lies in the closed rectangle
`[borders.1.1, borders.1.2] x [borders.2.1, borders.2.2]`. -/
noncomputable def findFishingGroundCells (s : Simulation)
    (borders : (ℝ × ℝ) × (ℝ × ℝ)) : Simulation :=
  { s with fishingCells := some ((List.range s.mesh.length).filter fun i =>
      match s.mesh.getD i dummyCell with
      | .tri d => decide (borders.1.1 ≤ d.xMid.1 ∧ d.xMid.1 ≤ borders.1.2 ∧
          borders.2.1 ≤ d.xMid.2 ∧ d.xMid.2 ≤ borders.2.2)
      | .line _ _ => false) }

/-- Embeds `cell.area` as read by `oil_in_fishing_ground` (the cache only ever holds
Triangle positions, so the Line branch is never reached). -/
noncomputable def cellArea : SimCell → ℝ
  | .tri d => d.area
  | .line _ _ => 0

/-- Embeds `Simulation.oil_in_fishing_ground`: reading `self.fishing_cells` fails
with `AttributeError` when `find_fishing_ground_cells` has never run;
otherwise return `sum(u[i] * cells[i].area)` over the cache. -/
noncomputable def oilInFishingGround (s : Simulation) : Except String ℝ :=
  match s.fishingCells with
  | none => .error "AttributeError: fishing_cells"
  | some l =>
      .ok ((l.map fun i => cellValue s.u i * cellArea (s.mesh.getD i dummyCell)).sum)

/-! ## Triangle geometry (`mesh/cells.py`, class `Triangle`) -/

/-- Embeds `np.linalg.norm` of a 2-vector. -/
noncomputable def vnorm (v : ℝ × ℝ) : ℝ := Real.sqrt (v.1 * v.1 + v.2 * v.2)

/-- Embeds `Triangle._compute_midpoint`: the centroid, `np.mean` of the vertices. -/
noncomputable def computeMidpoint (p1 p2 p3 : ℝ × ℝ) : ℝ × ℝ :=
  ((p1.1 + p2.1 + p3.1) / 3, (p1.2 + p2.2 + p3.2) / 3)

/-- Embeds `Triangle._compute_area`: `abs((x1*(y2-y3) + x2*(y3-y1) + x3*(y1-y2)) / 2)`. -/
noncomputable def computeArea (p1 p2 p3 : ℝ × ℝ) : ℝ :=
  |(p1.1 * (p2.2 - p3.2) + p2.1 * (p3.2 - p1.2) + p3.1 * (p1.2 - p2.2)) / 2|

/-- Embeds `Triangle._compute_edge_points`: `[(p1,p2), (p2,p3), (p3,p1)]`. -/
noncomputable def computeEdgePoints (p1 p2 p3 : ℝ × ℝ) :
    List ((ℝ × ℝ) × (ℝ × ℝ)) :=
  [(p1, p2), (p2, p3), (p3, p1)]

/-- One iteration of the loop in `Triangle._compute_normals`: rotate the edge
90 degrees counterclockwise, flip if it points toward the centroid, normalize
to unit length and rescale by the edge length. -/
noncomputable def edgeNormal (x_mid pi pj : ℝ × ℝ) : ℝ × ℝ :=
  let edge : ℝ × ℝ := (pj.1 - pi.1, pj.2 - pi.2);
  let edge_length : ℝ := vnorm edge;
  let normal : ℝ × ℝ := (-edge.2, edge.1);
  let edge_midpoint : ℝ × ℝ := (0.5 * (pi.1 + pj.1), 0.5 * (pi.2 + pj.2));
  let direction : ℝ × ℝ := (edge_midpoint.1 - x_mid.1, edge_midpoint.2 - x_mid.2);
  let flipped : ℝ × ℝ := if vdot normal direction < 0 then (-normal.1, -normal.2) else normal;
  let unit : ℝ × ℝ := (flipped.1 / vnorm flipped, flipped.2 / vnorm flipped);
  (unit.1 * edge_length, unit.2 * edge_length)

/-- Embeds `Triangle._compute_normals`: the three length-weighted outward normals. -/
noncomputable def computeNormals (p1 p2 p3 : ℝ × ℝ) : List (ℝ × ℝ) :=
  (computeEdgePoints p1 p2 p3).map fun pq =>
    edgeNormal (computeMidpoint p1 p2 p3) pq.1 pq.2

/-- Embeds `Triangle._velocity_field`: `v(x, y) = (y - 0.2x, -x)` at the centroid. -/
noncomputable def velocityField (x_mid : ℝ × ℝ) : ℝ × ℝ :=
  (x_mid.2 - 0.2 * x_mid.1, -x_mid.1)

/-- Embeds `Triangle.edge_vector`: `[pj - pi for pi, pj in self.edge_points]`. -/
noncomputable def edgeVectors (p1 p2 p3 : ℝ × ℝ) : List (ℝ × ℝ) :=
  (computeEdgePoints p1 p2 p3).map fun pq => (pq.2.1 - pq.1.1, pq.2.2 - pq.1.2)

/-- Midpoints `0.5 * (pi + pj)` of the three edges, as used for the
outwardness check in `_compute_normals`. -/
noncomputable def edgeMidpoints (p1 p2 p3 : ℝ × ℝ) : List (ℝ × ℝ) :=
  (computeEdgePoints p1 p2 p3).map fun pq =>
    (0.5 * (pq.1.1 + pq.2.1), 0.5 * (pq.1.2 + pq.2.2))

/-- The derived-geometry payload a geometry-mode `Triangle` stores
(`_x_mid`, `_area`, `_edge_points`, `_normals`, `_velocity`). -/
structure GeomData where
  xMid : ℝ × ℝ
  area : ℝ
  edgePoints : List ((ℝ × ℝ) × (ℝ × ℝ))
  normals : List (ℝ × ℝ)
  velocity : ℝ × ℝ

/-- A `Triangle` object as built by `Triangle.__init__`: vertex ids plus an
optional geometry payload (`None` in topology-only mode). -/
structure TriangleObj where
  idx : ℕ
  pointIds : List ℕ
  geom : Option GeomData

/-- Embeds `Triangle.__init__(point_ids, idx, points)`: reject a vertex count other
than 3; with `points=None` store no geometry; otherwise select the three
vertex coordinates from the table and compute the derived geometry. -/
noncomputable def mkTriangle (point_ids : List ℕ) (idx : ℕ)
    (points : Option (ℕ → ℝ × ℝ)) : Except String TriangleObj :=
  if point_ids.length ≠ 3 then .error "Triangle must have exactly 3 point IDs"
  else
    match points with
    | none => .ok ⟨idx, point_ids, none⟩
    | some tbl =>
        let p1 := tbl (point_ids.getD 0 0);
        let p2 := tbl (point_ids.getD 1 0);
        let p3 := tbl (point_ids.getD 2 0);
        .ok ⟨idx, point_ids, some
          ⟨computeMidpoint p1 p2 p3, computeArea p1 p2 p3,
           computeEdgePoints p1 p2 p3, computeNormals p1 p2 p3,
           velocityField (computeMidpoint p1 p2 p3)⟩⟩

/-- Error raised by every geometric property getter in topology-only mode. -/
def geometryError : String := "Triangle has no geometry (points=None)"

/-- Embeds `Triangle.x_mid` getter. -/
def TriangleObj.xMidGet (t : TriangleObj) : Except String (ℝ × ℝ) :=
  match t.geom with
  | none => .error geometryError
  | some g => .ok g.xMid

/-- Embeds `Triangle.area` getter. -/
def TriangleObj.areaGet (t : TriangleObj) : Except String ℝ :=
  match t.geom with
  | none => .error geometryError
  | some g => .ok g.area

/-- Embeds `Triangle.edge_points` getter. -/
def TriangleObj.edgePointsGet (t : TriangleObj) :
    Except String (List ((ℝ × ℝ) × (ℝ × ℝ))) :=
  match t.geom with
  | none => .error geometryError
  | some g => .ok g.edgePoints

/-- Embeds `Triangle.normals` getter. -/
def TriangleObj.normalsGet (t : TriangleObj) : Except String (List (ℝ × ℝ)) :=
  match t.geom with
  | none => .error geometryError
  | some g => .ok g.normals

/-- Embeds `Triangle.midpoint` getter (alias of `x_mid`). -/
def TriangleObj.midpointGet (t : TriangleObj) : Except String (ℝ × ℝ) :=
  match t.geom with
  | none => .error geometryError
  | some g => .ok g.xMid

/-- Embeds `Triangle.velocity` getter. -/
def TriangleObj.velocityGet (t : TriangleObj) : Except String (ℝ × ℝ) :=
  match t.geom with
  | none => .error geometryError
  | some g => .ok g.velocity

/-! ### Concrete meshes used as counterexample inputs

`twoTri...` is the unit square split along the diagonal from `(1,0)` to
`(0,1)`: points `p0=(0,0), p1=(1,0), p2=(0,1), p3=(1,1)`, Triangle `A` with
vertex ids `[0,1,2]` and Triangle `B` with `[1,3,2]`, and no boundary Lines.
The attribute values below are the ones `Triangle.__init__` computes for these
coordinates: areas `1/2`, outward length-weighted normals, centroid
velocities `v(x,y) = (y - 0.2x, -x)`. -/

/-- Triangle `A = (p0, p1, p2)` as constructed (before the neighbor pass). -/
noncomputable def triA0 : TriData :=
  ⟨[0, 1, 2], 1 / 2, [(0, -1), (1, 1), (-1, 0)], (4 / 15, -(1 / 3)),
    (1 / 3, 1 / 3), [], [none, none, none]⟩

/-- Triangle `B = (p1, p3, p2)` as constructed (before the neighbor pass). -/
noncomputable def triB0 : TriData :=
  ⟨[1, 3, 2], 1 / 2, [(1, 0), (0, 1), (-1, -1)], (8 / 15, -(2 / 3)),
    (2 / 3, 2 / 3), [], [none, none, none]⟩

/-- Triangle `A` after the neighbor pass: one neighbor, matched on edge 1. -/
noncomputable def triA : TriData :=
  ⟨[0, 1, 2], 1 / 2, [(0, -1), (1, 1), (-1, 0)], (4 / 15, -(1 / 3)),
    (1 / 3, 1 / 3), [1], [none, some 1, none]⟩

/-- Triangle `B` after the neighbor pass: one neighbor, matched on edge 2. -/
noncomputable def triB : TriData :=
  ⟨[1, 3, 2], 1 / 2, [(1, 0), (0, 1), (-1, -1)], (8 / 15, -(2 / 3)),
    (2 / 3, 2 / 3), [0], [none, none, some 0]⟩

/-- The two-triangle mesh as built by `Mesh._read_mesh`. -/
noncomputable def twoTriRaw : List SimCell := [.tri triA0, .tri triB0]

/-- The two-triangle mesh after `Mesh.computeNeighbors`. -/
noncomputable def twoTriMesh : List SimCell := [.tri triA, .tri triB]

/-- A degenerate Triangle record (area 0, empty geometry lists). -/
def triDegenerate : TriData :=
  ⟨[0, 1, 2], 0, [], (0, 0), (0, 0), [], [none, none, none]⟩

/-- A Triangle `[0,1,2]` plus a boundary Line `[1,2]` on its edge 1
(attribute values of the Triangle are irrelevant to the neighbor pass). -/
def triLineMesh : List SimCell := [.tri triDegenerate, .line [1, 2] []]

/-- Twice the signed area of the triangle `(p1, p2, p3)`. -/
noncomputable def twiceArea (p1 p2 p3 : ℝ × ℝ) : ℝ :=
  p1.1 * p2.2 - p2.1 * p1.2 + p2.1 * p3.2 - p3.1 * p2.2 + p3.1 * p1.2 - p1.1 * p3.2

/-- C3: upwind correctness of `flux`: with `dot = v · nrm`, the flux is `a * dot`
when `dot > 0`, `b * dot` when `dot < 0`, and `0` when `dot = 0`. -/
theorem flux_upwind (a b : ℝ) (nrm v : ℝ × ℝ) :
    (vdot v nrm > 0 → flux a b nrm v = a * vdot v nrm) ∧
    (vdot v nrm < 0 → flux a b nrm v = b * vdot v nrm) ∧
    (vdot v nrm = 0 → flux a b nrm v = 0) := by
  refine ⟨fun h => ?_, fun h => ?_, fun h => ?_⟩
  · simp only [flux, if_pos h]
  · simp only [flux, if_neg (not_lt.mpr h.le)]
  · simp [flux, h]

/-- Witness for C3 at a concrete input. -/
theorem flux_upwind_witness :
    vdot (1, 0) ((2 : ℝ), 0) > 0 ∧ flux 3 5 ((2 : ℝ), 0) (1, 0) = 3 * vdot (1, 0) (2, 0) :=
  ⟨by simp [vdot], (flux_upwind 3 5 (2, 0) (1, 0)).1 (by simp [vdot])⟩

/-! ### Neighbor-resolution lemmas -/

lemma mem_neighborsOf {L : List SimCell} {i j : ℕ} :
    j ∈ neighborsOf L i ↔
      j < L.length ∧ j ≠ i ∧ (sharedPoints (pidAt L i) (pidAt L j)).card = 2 := by
  simp [neighborsOf, List.mem_filter, List.mem_range]

lemma sharedPoints_comm (a b : List ℕ) : sharedPoints a b = sharedPoints b a :=
  Finset.inter_comm _ _

lemma mapWithIndex_getElem? (f : ℕ → SimCell → SimCell) :
    ∀ (M : List SimCell) (n i : ℕ),
      (mapWithIndex f n M)[i]? = (M[i]?).map (f (n + i)) := by
  intro M
  induction M with
  | nil => intro n i; simp [mapWithIndex]
  | cons c rest ih =>
    intro n i
    cases i with
    | zero => simp [mapWithIndex]
    | succ i =>
      have h := ih (n + 1) i
      simpa [mapWithIndex, Nat.add_assoc, Nat.add_comm 1 i] using h

lemma computeNeighbors_getElem? (L : List SimCell) (i : ℕ) :
    (computeNeighbors L)[i]? =
      (L[i]?).map (fun c =>
        match c with
        | .line p _ => .line p (neighborsOf L i)
        | .tri d =>
            .tri { d with neighbors := neighborsOf L i,
                          edgeToNeighbor := edgeToNeighborOf L i }) := by
  simpa [computeNeighbors] using mapWithIndex_getElem? _ L 0 i

lemma computeNeighbors_neighbors {L : List SimCell} {i : ℕ} (hi : i < L.length) :
    ((computeNeighbors L).getD i dummyCell).neighbors = neighborsOf L i := by
  have hcell : L[i]? = some L[i] := List.getElem?_eq_getElem hi
  have h := computeNeighbors_getElem? L i
  rw [hcell] at h
  rw [List.getD_eq_getElem?_getD, h]
  cases L[i] with
  | line p n => simp [SimCell.neighbors]
  | tri d => simp [SimCell.neighbors]

lemma computeNeighbors_edgeMap {L : List SimCell} {i : ℕ} {d : TriData}
    (hi : L[i]? = some (.tri d)) :
    ((computeNeighbors L).getD i dummyCell).edgeToNeighbor = edgeToNeighborOf L i := by
  have h := computeNeighbors_getElem? L i
  rw [hi] at h
  rw [List.getD_eq_getElem?_getD, h]
  simp [SimCell.edgeToNeighbor]

/-- C6: after the neighbor-resolution pass, for distinct cells at positions
`i` and `j`: `j` is listed among the neighbors of cell `i` iff the two cells
share exactly two vertex ids; the relation is mutual; and no cell lists
itself. -/
theorem neighbor_rule (L : List SimCell) (i j : ℕ)
    (hi : i < L.length) (hj : j < L.length) (hij : i ≠ j) :
    (j ∈ ((computeNeighbors L).getD i dummyCell).neighbors ↔
      (sharedPoints (pidAt L i) (pidAt L j)).card = 2) ∧
    (j ∈ ((computeNeighbors L).getD i dummyCell).neighbors ↔
      i ∈ ((computeNeighbors L).getD j dummyCell).neighbors) ∧
    i ∉ ((computeNeighbors L).getD i dummyCell).neighbors := by
  rw [computeNeighbors_neighbors hi, computeNeighbors_neighbors hj]
  refine ⟨?_, ?_, ?_⟩
  · rw [mem_neighborsOf]
    exact ⟨fun h => h.2.2, fun h => ⟨hj, Ne.symm hij, h⟩⟩
  · rw [mem_neighborsOf, mem_neighborsOf, sharedPoints_comm]
    exact ⟨fun h => ⟨hi, hij, h.2.2⟩, fun h => ⟨hj, Ne.symm hij, h.2.2⟩⟩
  · rw [mem_neighborsOf]
    rintro ⟨-, hne, -⟩
    exact hne rfl

/-- Witness for C6 on a concrete two-cell mesh. -/
theorem neighbor_rule_witness :
    (1 ∈ ((computeNeighbors [SimCell.line [0, 1] [], SimCell.line [1, 2] []]).getD 0
        dummyCell).neighbors ↔
      (sharedPoints (pidAt [SimCell.line [0, 1] [], SimCell.line [1, 2] []] 0)
        (pidAt [SimCell.line [0, 1] [], SimCell.line [1, 2] []] 1)).card = 2) ∧
    (1 ∈ ((computeNeighbors [SimCell.line [0, 1] [], SimCell.line [1, 2] []]).getD 0
        dummyCell).neighbors ↔
      0 ∈ ((computeNeighbors [SimCell.line [0, 1] [], SimCell.line [1, 2] []]).getD 1
        dummyCell).neighbors) ∧
    0 ∉ ((computeNeighbors [SimCell.line [0, 1] [], SimCell.line [1, 2] []]).getD 0
        dummyCell).neighbors :=
  neighbor_rule [SimCell.line [0, 1] [], SimCell.line [1, 2] []] 0 1
    (by decide) (by decide) (by decide)

/-! ### Edge-to-neighbor map lemmas -/

lemma firstMatchingEdge_lt {pid : List ℕ} {s : Finset ℕ} {k : ℕ}
    (h : firstMatchingEdge pid s = some k) : k < 3 := by
  have hk := List.mem_of_find?_eq_some h
  simpa using hk

lemma slotWrite_lt {L : List SimCell} {i j k : ℕ} (h : slotWrite L i j = some k) :
    k < 3 := by
  unfold slotWrite at h
  split at h
  · exact firstMatchingEdge_lt h
  · exact absurd h (by simp)

lemma foldl_slots_getElem? (f : ℕ → Option ℕ) :
    ∀ (js : List ℕ) (acc : List (Option ℕ)), acc.length = 3 →
      ∀ k : ℕ, (∀ j k', f j = some k' → k' < 3) →
      (js.foldl
          (fun a j => match f j with | some k' => a.set k' (some j) | none => a)
          acc)[k]? =
        match (js.filter fun j => f j == some k).getLast? with
        | some j => some (some j)
        | none => acc[k]? := by
  intro js
  induction js with
  | nil => intro acc _ k _; simp
  | cons j t ih =>
    intro acc hacc k hf
    rw [List.foldl_cons, List.filter_cons]
    by_cases hmatch : f j = some k
    · rw [if_pos (by simp [hmatch])]
      simp only [hmatch]
      rw [ih (acc.set k (some j)) (by simpa using hacc) k hf]
      cases hlast : (t.filter fun j => f j == some k).getLast? with
      | some j₂ =>
        have h2 : ((j :: t.filter fun j => f j == some k).getLast?) = some j₂ := by
          rw [List.getLast?_cons, hlast]
          rfl
        rw [h2]
      | none =>
        have ht : (t.filter fun j => f j == some k) = [] :=
          List.getLast?_eq_none_iff.mp hlast
        rw [ht]
        have hk3 : k < acc.length := hacc ▸ hf j k hmatch
        simp [List.getElem?_set_self hk3]
    · rw [if_neg (by simp [hmatch])]
      cases hfj : f j with
      | none =>
        simp only [hfj]
        exact ih acc hacc k hf
      | some k' =>
        have hkk : k' ≠ k := fun h => hmatch (h ▸ hfj)
        simp only [hfj]
        rw [ih (acc.set k' (some j)) (by simpa using hacc) k hf]
        cases hlast : (t.filter fun j => f j == some k).getLast? with
        | some j₂ => rfl
        | none => simp [List.getElem?_set_ne hkk]

/-- Pointwise description of the edge map the resolver builds for cell `i`:
slot `k` holds the id of the last candidate whose scan wrote slot `k`, and
`none` if no candidate wrote it. -/
lemma edgeToNeighborOf_getElem? (L : List SimCell) (i k : ℕ) (hk : k < 3) :
    (edgeToNeighborOf L i)[k]? =
      match ((List.range L.length).filter fun j => slotWrite L i j == some k).getLast? with
      | some j => some (some j)
      | none => some none := by
  unfold edgeToNeighborOf
  rw [foldl_slots_getElem? (slotWrite L i) (List.range L.length) [none, none, none] rfl k
    (fun _ _ h => slotWrite_lt h)]
  cases hlast : ((List.range L.length).filter fun j => slotWrite L i j == some k).getLast? with
  | some j => rfl
  | none =>
    interval_cases k <;> rfl

/-! ### C2: edge-to-neighbor resolution -/

lemma getD_of_getElem? {L : List SimCell} {j : ℕ} {c : SimCell}
    (h : L[j]? = some c) : L.getD j dummyCell = c := by
  rw [List.getD_eq_getElem?_getD, h]
  rfl

lemma lt_length_of_getElem? {L : List SimCell} {j : ℕ} {c : SimCell}
    (h : L[j]? = some c) : j < L.length := by
  by_contra hlt
  rw [List.getElem?_eq_none (Nat.le_of_not_lt hlt)] at h
  exact Option.noConfusion h

/-- C2 (amended): after the pass, for a Triangle `A` at position `i`:
(a) if the cell `B` at position `j ≠ i` is a geometry-mode Triangle sharing
exactly two vertex ids with `A`, `k` is the first local edge of `A` whose
vertex pair equals the shared pair, and no other cell writes slot `k`, then
`edge_to_neighbor[k] = j`; (b) a slot written by no cell — in particular one
whose only matching partner is a Line, or one with no matching local edge —
is left `None`. -/
theorem edge_map_rule :
    (∀ (L : List SimCell) (i j k : ℕ) (d d' : TriData),
        L[i]? = some (.tri d) → L[j]? = some (.tri d') → j ≠ i →
        (sharedPoints (pidAt L i) (pidAt L j)).card = 2 →
        firstMatchingEdge (pidAt L i) (sharedPoints (pidAt L i) (pidAt L j)) = some k →
        (∀ j', j' < L.length → slotWrite L i j' = some k → j' = j) →
        ((computeNeighbors L).getD i dummyCell).edgeToNeighbor.getD k none = some j) ∧
    (∀ (L : List SimCell) (i k : ℕ) (d : TriData),
        L[i]? = some (.tri d) → k < 3 →
        (∀ j', j' < L.length → slotWrite L i j' ≠ some k) →
        ((computeNeighbors L).getD i dummyCell).edgeToNeighbor.getD k none = none) := by
  constructor
  · intro L i j k d d' hi hj hne hcard hfirst huniq
    have hw : slotWrite L i j = some k := by
      unfold slotWrite
      rw [if_pos ⟨hne, by rw [getD_of_getElem? hj]; rfl, hcard⟩]
      exact hfirst
    have hk3 : k < 3 := slotWrite_lt hw
    rw [computeNeighbors_edgeMap hi, List.getD_eq_getElem?_getD,
      edgeToNeighborOf_getElem? L i k hk3]
    have hjlt : j < L.length := lt_length_of_getElem? hj
    have hmem : j ∈ (List.range L.length).filter fun j' => slotWrite L i j' == some k := by
      rw [List.mem_filter]
      exact ⟨List.mem_range.mpr hjlt, by simp [hw]⟩
    have hne' : ((List.range L.length).filter fun j' => slotWrite L i j' == some k) ≠ [] :=
      List.ne_nil_of_mem hmem
    obtain ⟨x, hx⟩ := Option.isSome_iff_exists.mp (List.getLast?_isSome.mpr hne')
    have hxmem := List.mem_of_getLast?_eq_some hx
    rw [List.mem_filter, List.mem_range] at hxmem
    have hxw : slotWrite L i x = some k := by
      have := hxmem.2
      simpa using this
    have hxj : x = j := huniq x hxmem.1 hxw
    rw [hx, hxj]
    rfl
  · intro L i k d hi hk3 hnone
    rw [computeNeighbors_edgeMap hi, List.getD_eq_getElem?_getD,
      edgeToNeighborOf_getElem? L i k hk3]
    have hnil : ((List.range L.length).filter fun j' => slotWrite L i j' == some k) = [] := by
      rw [List.filter_eq_nil_iff]
      intro j' hj'
      simp only [beq_iff_eq]
      exact fun h => hnone j' (List.mem_range.mp hj') h
    rw [hnil]
    rfl

/-- C2 counterexample: in `triLineMesh` the Triangle at position 0 shares
exactly two vertex ids with the Line at position 1, and its local edge 1 is
the vertex pair shared with the Line; yet after the neighbor pass slot 1 of
`edge_to_neighbor` is `None`, not the Line's id `1` — refuting the claim that
a matching Boundary Segment `B` makes `edgeToNeighbor[k] = id(B)`. -/
theorem edge_map_line_counterexample :
    (sharedPoints (pidAt triLineMesh 0) (pidAt triLineMesh 1)).card = 2 ∧
    edgePair (pidAt triLineMesh 0) 1 =
      sharedPoints (pidAt triLineMesh 0) (pidAt triLineMesh 1) ∧
    ((computeNeighbors triLineMesh).getD 0 dummyCell).edgeToNeighbor.getD 1 none
      = none := by
  refine ⟨by decide, by decide, by rfl⟩

/-- Witness for C2 (amended), part (a), on the two-triangle mesh: Triangle
`B` (position 1) is matched on local edge 1 of Triangle `A` (position 0). -/
theorem edge_map_rule_witness :
    ((computeNeighbors twoTriRaw).getD 0 dummyCell).edgeToNeighbor.getD 1 none
      = some 1 := by
  refine edge_map_rule.1 twoTriRaw 0 1 1 triA0 triB0 rfl rfl (by decide)
    (by decide) (by decide) ?_
  intro j' hlt hw
  have h2 : j' < 2 := by simpa [twoTriRaw] using hlt
  interval_cases j'
  · exact absurd hw (by decide)
  · rfl

/-! ### Step lemmas (C4, C7, C1) -/

lemma stepGo_getElem? (L : List SimCell) (u : List ℝ) (dt : ℝ) :
    ∀ (M : List SimCell) (n i : ℕ),
      (stepGo L u dt n M)[i]? = (M[i]?).map (fun c => newCellValue L u dt (n + i) c) := by
  intro M
  induction M with
  | nil => intro n i; simp [stepGo]
  | cons c rest ih =>
    intro n i
    cases i with
    | zero => simp [stepGo]
    | succ i =>
      have h := ih (n + 1) i
      simpa [stepGo, Nat.add_assoc, Nat.add_comm 1 i] using h

lemma stepU_getElem? (L : List SimCell) (dt : ℝ) (u : List ℝ) (i : ℕ) :
    (stepU L dt u)[i]? = (L[i]?).map (fun c => newCellValue L u dt i c) := by
  simpa [stepU] using stepGo_getElem? L u dt L 0 i

/-- C4: after any single `step()`, the slot of every Boundary Segment (Line)
cell is exactly 0, and the freshly filled array becomes the current solution
`u` by the final buffer swap (the old `u` moving into `u_new`). -/
theorem line_cells_zero_after_step (s : Simulation) (i : ℕ) (p n : List ℕ)
    (h : s.mesh[i]? = some (.line p n)) :
    ((Simulation.step s).u)[i]? = some 0 ∧
    (Simulation.step s).u = stepU s.mesh s.dt s.u ∧
    (Simulation.step s).uNew = s.u := by
  refine ⟨?_, rfl, rfl⟩
  show (stepU s.mesh s.dt s.u)[i]? = some 0
  rw [stepU_getElem?, h]
  rfl

/-- Witness for C4 on a one-Line mesh with a nonzero pre-step value. -/
theorem line_cells_zero_after_step_witness :
    ((Simulation.step ⟨[SimCell.line [0, 1] []], 1, [5], [0], none⟩).u)[0]? = some 0 ∧
    (Simulation.step ⟨[SimCell.line [0, 1] []], 1, [5], [0], none⟩).u =
      stepU [SimCell.line [0, 1] []] 1 [5] ∧
    (Simulation.step ⟨[SimCell.line [0, 1] []], 1, [5], [0], none⟩).uNew = [5] :=
  line_cells_zero_after_step ⟨[SimCell.line [0, 1] []], 1, [5], [0], none⟩ 0 [0, 1] []
    rfl

/-- C7: a Triangle with `area <= 0` is skipped by `step()`: its slot keeps the
pre-step value `u[i]`, while Triangles with positive area receive the normal
update `u[j] + update` and Line cells are zeroed as usual. -/
theorem degenerate_triangle_skipped (L : List SimCell) (dt : ℝ) (u : List ℝ)
    (i : ℕ) (d : TriData) (hi : L[i]? = some (.tri d)) (ha : d.area ≤ 0) :
    (stepU L dt u)[i]? = some (cellValue u i) ∧
    (∀ (j : ℕ) (d' : TriData), L[j]? = some (.tri d') → 0 < d'.area →
      (stepU L dt u)[j]? = some (cellValue u j + triUpdate L u dt j d')) ∧
    (∀ (j : ℕ) (p n : List ℕ), L[j]? = some (.line p n) →
      (stepU L dt u)[j]? = some 0) := by
  refine ⟨?_, ?_, ?_⟩
  · rw [stepU_getElem?, hi]
    show some (newCellValue L u dt i (.tri d)) = _
    rw [show newCellValue L u dt i (.tri d) =
      if d.area ≤ 0 then cellValue u i else cellValue u i + triUpdate L u dt i d from rfl]
    rw [if_pos ha]
  · intro j d' hj ha'
    rw [stepU_getElem?, hj]
    show some (newCellValue L u dt j (.tri d')) = _
    rw [show newCellValue L u dt j (.tri d') =
      if d'.area ≤ 0 then cellValue u j else cellValue u j + triUpdate L u dt j d' from rfl]
    rw [if_neg (not_le.mpr ha')]
  · intro j p n hj
    rw [stepU_getElem?, hj]
    rfl

/-- Witness for C7 on a one-cell mesh holding a degenerate triangle. -/
theorem degenerate_triangle_skipped_witness :
    (stepU [SimCell.tri triDegenerate] 1 [5])[0]? = some (cellValue [5] 0) :=
  (degenerate_triangle_skipped [SimCell.tri triDegenerate] 1 [5] 0 triDegenerate
    rfl (le_refl 0)).1

/-- C1 (code bug): `step()` iterates `for k in range(len(cell.neighbors))`,
not over the edge indices 0, 1, 2 announced by its own comment.  On the
two-triangle mesh (produced here by the resolver itself), Triangle `A` has a
single neighbor matched at edge slot 1, so the loop visits only `k = 0` and
skips the matched edge: with `dt = 1` and `u = [0, 1]` the code leaves
`u_new[0] = 0`, while the claimed per-edge sum over `k = 0, 1, 2` gives
`u[0] + 1/5 = 1/5`. -/
theorem step_edge_loop_bug :
    computeNeighbors twoTriRaw = twoTriMesh ∧
    (stepU twoTriMesh 1 [0, 1])[0]? = some 0 ∧
    cellValue [0, 1] 0 +
      ((List.range 3).map (edgeTerm twoTriMesh [0, 1] 1 triA 0)).sum = 1 / 5 := by
  refine ⟨rfl, ?_, ?_⟩
  · rw [stepU_getElem?]
    rw [show (twoTriMesh[0]? : Option SimCell) = some (.tri triA) from rfl]
    show some (newCellValue twoTriMesh [0, 1] 1 0 (.tri triA)) = _
    rw [show newCellValue twoTriMesh [0, 1] 1 0 (.tri triA) =
      if triA.area ≤ 0 then cellValue [0, 1] 0
      else cellValue [0, 1] 0 + triUpdate twoTriMesh [0, 1] 1 0 triA from rfl]
    rw [if_neg (by rw [show triA.area = 1 / 2 from rfl]; norm_num)]
    rw [show triUpdate twoTriMesh [0, 1] 1 0 triA =
      ((List.range 1).map (edgeTerm twoTriMesh [0, 1] 1 triA 0)).sum from rfl]
    rw [show (List.range 1) = [0] from rfl]
    simp only [List.map_cons, List.map_nil, List.sum_cons, List.sum_nil]
    rw [show edgeTerm twoTriMesh [0, 1] 1 triA 0 0 = 0 from rfl]
    norm_num [cellValue]
  · rw [show (List.range 3) = [0, 1, 2] from rfl]
    simp only [List.map_cons, List.map_nil, List.sum_cons, List.sum_nil]
    rw [show edgeTerm twoTriMesh [0, 1] 1 triA 0 0 = 0 from rfl]
    rw [show edgeTerm twoTriMesh [0, 1] 1 triA 0 2 = 0 from rfl]
    rw [show edgeTerm twoTriMesh [0, 1] 1 triA 0 1 =
      flux_contribution (cellValue [0, 1] 0) (cellValue [0, 1] 1) triA.area
        (triA.normals.getD 1 (0, 0)) triA.velocity triB.velocity 1 from rfl]
    simp only [flux_contribution, flux, vdot, cellValue]
    norm_num [triA, triB]

/-! ### Run loop (C8), fishing-ground cache (C10), topology-only mode (C9) -/

/-- C8: for positive `t_end` and `dt`, `run(t_end, .)` first sets the initial
condition and then applies `step()` exactly `floor(t_end / dt)` times in
strict sequence (iteration of `step`), with no step skipped or reordered. -/
theorem run_steps_floor (s : Simulation) (t_end : ℝ)
    (ht : 0 < t_end) (hdt : 0 < s.dt) :
    ∃ n : ℕ, (n : ℤ) = ⌊t_end / s.dt⌋ ∧
      Simulation.run s t_end =
        Simulation.step^[n] { s with u := setInitialU s.mesh (0.35, 0.45) 0.01 } := by
  have hq : 0 ≤ t_end / s.dt := le_of_lt (div_pos ht hdt)
  have htr : pyIntTrunc (t_end / s.dt) = ⌊t_end / s.dt⌋ := by
    unfold pyIntTrunc
    rw [if_pos hq]
  refine ⟨(pyIntTrunc (t_end / s.dt)).toNat, ?_, rfl⟩
  rw [htr]
  exact Int.toNat_of_nonneg (Int.floor_nonneg.mpr hq)

/-- Witness for C8 with `t_end = 1`, `dt = 1` on the empty mesh. -/
theorem run_steps_floor_witness :
    ∃ n : ℕ, (n : ℤ) = ⌊(1 : ℝ) / (Simulation.init [] 1).dt⌋ ∧
      Simulation.run (Simulation.init [] 1) 1 =
        Simulation.step^[n]
          { Simulation.init [] 1 with
            u := setInitialU (Simulation.init [] 1).mesh (0.35, 0.45) 0.01 } :=
  run_steps_floor (Simulation.init [] 1) 1 zero_lt_one zero_lt_one

/-- C10: a fresh `Simulation` has no fishing-ground cache, so
`oil_in_fishing_ground()` fails with an attribute error instead of returning
a value; `step()` never creates the cache, and only
`find_fishing_ground_cells` does. -/
theorem fishing_cache_attribute_error (mesh : List SimCell) (dt : ℝ) :
    (Simulation.init mesh dt).fishingCells = none ∧
    oilInFishingGround (Simulation.init mesh dt) =
      .error "AttributeError: fishing_cells" ∧
    (∀ s : Simulation, (Simulation.step s).fishingCells = s.fishingCells) ∧
    (∀ (s : Simulation) (b : (ℝ × ℝ) × (ℝ × ℝ)),
      (findFishingGroundCells s b).fishingCells.isSome = true) :=
  ⟨rfl, rfl, fun _ => rfl, fun _ _ => rfl⟩

/-- C9: constructing a Triangle in topology-only mode (no coordinate table)
succeeds for 3 vertex ids but stores no geometry, and every derived-geometry
getter (`x_mid`, `area`, `edge_points`, `normals`, `midpoint`, `velocity`)
fails with the geometry-unavailable error rather than returning a default. -/
theorem topology_only_getters_fail (point_ids : List ℕ) (idx : ℕ)
    (h3 : point_ids.length = 3) :
    ∃ t : TriangleObj, mkTriangle point_ids idx none = .ok t ∧ t.geom = none ∧
      t.xMidGet = .error geometryError ∧ t.areaGet = .error geometryError ∧
      t.edgePointsGet = .error geometryError ∧
      t.normalsGet = .error geometryError ∧
      t.midpointGet = .error geometryError ∧
      t.velocityGet = .error geometryError := by
  refine ⟨⟨idx, point_ids, none⟩, ?_, rfl, rfl, rfl, rfl, rfl, rfl, rfl⟩
  unfold mkTriangle
  rw [if_neg (by simp [h3])]

/-- Witness for C9 at the concrete vertex ids `[0, 1, 2]`. -/
theorem topology_only_getters_fail_witness :
    ∃ t : TriangleObj, mkTriangle [0, 1, 2] 7 none = .ok t ∧ t.geom = none ∧
      t.xMidGet = .error geometryError ∧ t.areaGet = .error geometryError ∧
      t.edgePointsGet = .error geometryError ∧
      t.normalsGet = .error geometryError ∧
      t.midpointGet = .error geometryError ∧
      t.velocityGet = .error geometryError :=
  topology_only_getters_fail [0, 1, 2] 7 rfl

/-! ### Geometry lemmas (C5) -/

lemma vnorm_nonneg (v : ℝ × ℝ) : 0 ≤ vnorm v := Real.sqrt_nonneg _

lemma vnorm_eq_zero_iff {v : ℝ × ℝ} : vnorm v = 0 ↔ v.1 = 0 ∧ v.2 = 0 := by
  unfold vnorm
  rw [Real.sqrt_eq_zero']
  constructor
  · intro h
    constructor <;> nlinarith [sq_nonneg v.1, sq_nonneg v.2]
  · rintro ⟨h1, h2⟩
    rw [h1, h2]
    norm_num

lemma vnorm_neg_swap (x y : ℝ) : vnorm (-y, x) = vnorm (x, y) := by
  unfold vnorm
  congr 1
  ring

lemma vnorm_swap_neg (x y : ℝ) : vnorm (y, -x) = vnorm (x, y) := by
  unfold vnorm
  congr 1
  ring

lemma normalize_rescale (x y L : ℝ) (h : vnorm (x, y) = L) :
    (x / L * L, y / L * L) = ((x, y) : ℝ × ℝ) := by
  by_cases hL : L = 0
  · subst hL
    obtain ⟨h1, h2⟩ := vnorm_eq_zero_iff.mp h
    simp only at h1 h2
    rw [h1, h2]
    norm_num
  · rw [div_mul_cancel₀ _ hL, div_mul_cancel₀ _ hL]

/-- The loop body of `_compute_normals` simplifies exactly (unit-normalizing
then rescaling by the edge length is the identity, the zero edge included):
the produced normal is the rotated edge, flipped iff it points toward the
centroid. -/
lemma edgeNormal_eq (m a b : ℝ × ℝ) :
    edgeNormal m a b =
      if vdot (-(b.2 - a.2), b.1 - a.1)
          (0.5 * (a.1 + b.1) - m.1, 0.5 * (a.2 + b.2) - m.2) < 0 then
        ((b.2 - a.2, -(b.1 - a.1)) : ℝ × ℝ)
      else (-(b.2 - a.2), b.1 - a.1) := by
  unfold edgeNormal
  dsimp only
  by_cases hc : vdot (-(b.2 - a.2), b.1 - a.1)
      (0.5 * (a.1 + b.1) - m.1, 0.5 * (a.2 + b.2) - m.2) < 0
  · rw [if_pos hc, if_pos hc]
    simp only [neg_neg]
    rw [vnorm_swap_neg (b.1 - a.1) (b.2 - a.2)]
    exact normalize_rescale _ _ _ (vnorm_swap_neg (b.1 - a.1) (b.2 - a.2))
  · rw [if_neg hc, if_neg hc]
    rw [vnorm_neg_swap (b.1 - a.1) (b.2 - a.2)]
    exact normalize_rescale _ _ _ (vnorm_neg_swap (b.1 - a.1) (b.2 - a.2))

/-- Orthogonality, magnitude and outwardness for a single edge normal. -/
lemma edgeNormal_props (m a b : ℝ × ℝ) :
    vdot (edgeNormal m a b) (b.1 - a.1, b.2 - a.2) = 0 ∧
    vnorm (edgeNormal m a b) = vnorm (b.1 - a.1, b.2 - a.2) ∧
    0 ≤ vdot (edgeNormal m a b)
      (0.5 * (a.1 + b.1) - m.1, 0.5 * (a.2 + b.2) - m.2) := by
  rw [edgeNormal_eq]
  split_ifs with hc
  · refine ⟨by simp [vdot]; ring, vnorm_swap_neg _ _, ?_⟩
    simp only [vdot] at hc ⊢
    nlinarith [hc]
  · refine ⟨by simp [vdot]; ring, vnorm_neg_swap _ _, ?_⟩
    simp only [vdot] at hc ⊢
    nlinarith [not_lt.mp hc]

lemma flipDot0 (p1 p2 p3 : ℝ × ℝ) :
    vdot (-(p2.2 - p1.2), p2.1 - p1.1)
      (0.5 * (p1.1 + p2.1) - (computeMidpoint p1 p2 p3).1,
       0.5 * (p1.2 + p2.2) - (computeMidpoint p1 p2 p3).2) =
      -(twiceArea p1 p2 p3) / 3 := by
  simp only [vdot, computeMidpoint, twiceArea]
  ring

lemma flipDot1 (p1 p2 p3 : ℝ × ℝ) :
    vdot (-(p3.2 - p2.2), p3.1 - p2.1)
      (0.5 * (p2.1 + p3.1) - (computeMidpoint p1 p2 p3).1,
       0.5 * (p2.2 + p3.2) - (computeMidpoint p1 p2 p3).2) =
      -(twiceArea p1 p2 p3) / 3 := by
  simp only [vdot, computeMidpoint, twiceArea]
  ring

lemma flipDot2 (p1 p2 p3 : ℝ × ℝ) :
    vdot (-(p1.2 - p3.2), p1.1 - p3.1)
      (0.5 * (p3.1 + p1.1) - (computeMidpoint p1 p2 p3).1,
       0.5 * (p3.2 + p1.2) - (computeMidpoint p1 p2 p3).2) =
      -(twiceArea p1 p2 p3) / 3 := by
  simp only [vdot, computeMidpoint, twiceArea]
  ring

/-- C5: for every Triangle constructed from coordinates `p1, p2, p3`, each of
the three length-weighted normals is orthogonal to its edge vector, has
magnitude equal to that edge's length, points away from the centroid (its dot
product with edge midpoint minus centroid is nonnegative), and the vector sum
of the three normals is the zero vector. -/
theorem normals_orthogonal_outward_sum_zero (p1 p2 p3 : ℝ × ℝ) :
    (∀ k : Fin 3,
      vdot ((computeNormals p1 p2 p3).getD (k : ℕ) (0, 0))
        ((edgeVectors p1 p2 p3).getD (k : ℕ) (0, 0)) = 0) ∧
    (∀ k : Fin 3,
      vnorm ((computeNormals p1 p2 p3).getD (k : ℕ) (0, 0)) =
        vnorm ((edgeVectors p1 p2 p3).getD (k : ℕ) (0, 0))) ∧
    (∀ k : Fin 3,
      0 ≤ vdot ((computeNormals p1 p2 p3).getD (k : ℕ) (0, 0))
        (((edgeMidpoints p1 p2 p3).getD (k : ℕ) (0, 0)).1 -
            (computeMidpoint p1 p2 p3).1,
         ((edgeMidpoints p1 p2 p3).getD (k : ℕ) (0, 0)).2 -
            (computeMidpoint p1 p2 p3).2)) ∧
    (computeNormals p1 p2 p3).sum = ((0 : ℝ), (0 : ℝ)) := by
  refine ⟨?_, ?_, ?_, ?_⟩
  · intro k
    fin_cases k
    · exact (edgeNormal_props (computeMidpoint p1 p2 p3) p1 p2).1
    · exact (edgeNormal_props (computeMidpoint p1 p2 p3) p2 p3).1
    · exact (edgeNormal_props (computeMidpoint p1 p2 p3) p3 p1).1
  · intro k
    fin_cases k
    · exact (edgeNormal_props (computeMidpoint p1 p2 p3) p1 p2).2.1
    · exact (edgeNormal_props (computeMidpoint p1 p2 p3) p2 p3).2.1
    · exact (edgeNormal_props (computeMidpoint p1 p2 p3) p3 p1).2.1
  · intro k
    fin_cases k
    · exact (edgeNormal_props (computeMidpoint p1 p2 p3) p1 p2).2.2
    · exact (edgeNormal_props (computeMidpoint p1 p2 p3) p2 p3).2.2
    · exact (edgeNormal_props (computeMidpoint p1 p2 p3) p3 p1).2.2
  · show ([edgeNormal (computeMidpoint p1 p2 p3) p1 p2,
        edgeNormal (computeMidpoint p1 p2 p3) p2 p3,
        edgeNormal (computeMidpoint p1 p2 p3) p3 p1] : List (ℝ × ℝ)).sum = _
    simp only [List.sum_cons, List.sum_nil, add_zero]
    simp only [edgeNormal_eq]
    rw [flipDot0, flipDot1, flipDot2]
    split_ifs with hc
    · apply Prod.ext <;> simp
    · apply Prod.ext <;> simp

end OilSim
